import Mathlib

/-!
Shallow embedding of the expense-tracker backend (`fullCode.js`): the
User/Category/Expense data model, the category and expense route handlers,
and the reporting aggregations (dashboard, monthly chart, trends).

Conventions of the embedding:
* Mongo ObjectIds are modelled as `Nat`.
* JS `Date` values are modelled at calendar-day granularity as
  `DateT = ⟨year, month, day⟩`, compared lexicographically (this is the
  order `Date` comparison induces for valid calendar dates, and the order
  ISO `YYYY-MM-DD` strings sort in).  Handlers that read the wall clock
  (`new Date()` for the dashboard windows, `now − period days` for trends)
  take the clock-derived date as an explicit parameter.
* JS numeric amounts are modelled as `Int`.
* A Mongo collection is a `List` of records in natural insertion order;
  `findOne` is `List.find?`, `findOneAndUpdate`/`findOneAndDelete` update or
  remove the first match, `insert` appends.
* Each route handler takes the authenticated user (the `req.user` resolved
  by the auth middleware) and the current store, and returns its HTTP-level
  result together with the store after the request.
-/

/-- Calendar date: year, month (1–12 for valid dates), day. -/
structure DateT where
  year : Nat
  month : Nat
  day : Nat
deriving DecidableEq, Repr

/-- Lexicographic `≤` on dates, the order JS `Date` comparison gives. -/
def dLe (a b : DateT) : Bool :=
  Nat.blt a.year b.year ||
    (a.year == b.year &&
      (Nat.blt a.month b.month ||
        (a.month == b.month && Nat.ble a.day b.day)))

/-- Strict `<` on dates. -/
def dLt (a b : DateT) : Bool := !(dLe b a)

/-- A date a JS `Date` can actually denote: month in 1..12, day in 1..31. -/
def dateValid (d : DateT) : Bool :=
  1 ≤ d.month && d.month ≤ 12 && 1 ≤ d.day && d.day ≤ 31

/-- models/User.js record (password kept as the stored hash string). -/
structure User where
  _id : Nat
  username : String
  email : String
  password : String
  fullName : String
  monthlyBudget : Int
  currency : String
deriving DecidableEq, Repr

/-- models/Category.js record. -/
structure Category where
  _id : Nat
  name : String
  description : Option String
  color : String
  icon : String
  userId : Nat
  isDefault : Bool
deriving DecidableEq, Repr

/-- models/Expense.js record. -/
structure Expense where
  _id : Nat
  title : String
  amount : Int
  description : Option String
  category : Nat
  userId : Nat
  date : DateT
  paymentMethod : String
  tags : List String
deriving DecidableEq, Repr

/-- The three Mongo collections. -/
structure Store where
  users : List User
  categories : List Category
  expenses : List Expense
deriving DecidableEq, Repr

/-- HTTP-level outcome of a mutating handler, mirroring the distinct
responses the route code produces. -/
inductive MutResult (α : Type) where
  | ok : α → MutResult α
  /-- 400 with the express-validator `errors` array. -/
  | validationFailed : MutResult α
  /-- 404 `not found` (used both for absent and for foreign records). -/
  | notFound : MutResult α
  /-- 400 `Invalid category`. -/
  | invalidCategory : MutResult α
  /-- 400 `Category with this name already exists` / duplicate user. -/
  | conflict : MutResult α
  /-- 500 `Server error` (an exception reached the catch block). -/
  | serverError : MutResult α
deriving DecidableEq, Repr

/-- HTTP status code of a `MutResult`, as the handlers send it. -/
def MutResult.status {α : Type} : MutResult α → Nat
  | .ok _ => 200
  | .validationFailed => 400
  | .notFound => 404
  | .invalidCategory => 400
  | .conflict => 409
  | .serverError => 500

/-- `findOneAndUpdate`: rewrite the first record matching `p` with `f`,
returning the updated record (the `new: true` document) and the new list. -/
def updateFirst {α : Type} (p : α → Bool) (f : α → α) : List α → Option α × List α
  | [] => (none, [])
  | x :: xs =>
    if p x then (some (f x), f x :: xs)
    else
      let r := updateFirst p f xs
      (r.1, x :: r.2)

/-- `findOneAndDelete`: remove the first record matching `p`, returning it
and the remaining list. -/
def removeFirst {α : Type} (p : α → Bool) : List α → Option α × List α
  | [] => (none, [])
  | x :: xs =>
    if p x then (some x, xs)
    else
      let r := removeFirst p xs
      (r.1, x :: r.2)

/-- Insert `x` into a list assumed sorted by `le`, keeping it sorted. -/
def insertSorted {α : Type} (le : α → α → Bool) (x : α) : List α → List α
  | [] => [x]
  | y :: ys => if le x y then x :: y :: ys else y :: insertSorted le x ys

/-- Insertion sort by the boolean relation `le` (the embedding's stand-in
for the store's sort stage). -/
def sortWith {α : Type} (le : α → α → Bool) : List α → List α
  | [] => []
  | x :: xs => insertSorted le x (sortWith le xs)

/-- JS `v || dflt` on an optional string field: absent or empty means the
default is used. -/
def orDefault (v : Option String) (dflt : String) : String :=
  match v with
  | none => dflt
  | some s => if s = "" then dflt else s

/-! ## routes/categories.js -/

/-- Request body of POST /api/categories (`none` = field absent). -/
structure CategoryInput where
  name : String
  description : Option String
  color : Option String
  icon : Option String
deriving DecidableEq, Repr

/-- POST /api/categories: reject empty name (express-validator `notEmpty`),
reject a duplicate name for the same user, otherwise insert with
`isDefault` left to its schema default `false` and color/icon defaulted. -/
def createCategory (uid newId : Nat) (inp : CategoryInput) (s : Store) :
    MutResult Category × Store :=
  if inp.name = "" then (.validationFailed, s)
  else if (s.categories.find? (fun c => c.name == inp.name && c.userId == uid)).isSome then
    (.conflict, s)
  else
    let c : Category :=
      { _id := newId, name := inp.name, description := inp.description,
        color := orDefault inp.color "#007bff",
        icon := orDefault inp.icon "fas fa-tag",
        userId := uid, isDefault := false }
    (.ok c, { s with categories := s.categories ++ [c] })

/-- DELETE /api/categories/:id: `findOneAndDelete {_id, userId,
isDefault: false}`; the single predicate conflates missing, foreign and
default-protected categories into the same 404. -/
def deleteCategory (uid id : Nat) (s : Store) : MutResult Category × Store :=
  let r := removeFirst (fun c => c._id == id && c.userId == uid && !c.isDefault)
    s.categories
  match r.1 with
  | none => (.notFound, s)
  | some c => (.ok c, { s with categories := r.2 })

/-! ## routes/expenses.js -/

/-- Sort field of the expense list query (`sortBy`, default `date`). -/
inductive SortField where
  | date
  | amount
  | title
deriving DecidableEq, Repr

/-- Ascending comparison for a sort field. -/
def fieldLe (f : SortField) (a b : Expense) : Bool :=
  match f with
  | .date => dLe a.date b.date
  | .amount => a.amount ≤ b.amount
  | .title => a.title ≤ b.title

/-- Query string of GET /api/expenses with the handler's defaults. -/
structure ExpenseQuery where
  page : Nat := 1
  limit : Nat := 10
  category : Option Nat := none
  startDate : Option DateT := none
  endDate : Option DateT := none
  search : Option String := none
  sortField : SortField := .date
  sortDesc : Bool := true
deriving DecidableEq, Repr

/-- Does `needle` occur as a contiguous segment of `hay`? -/
def containsSeg (hay needle : List Char) : Bool :=
  match hay with
  | [] => needle.isEmpty
  | _ :: t => needle.isPrefixOf hay || containsSeg t needle

/-- Case-insensitive substring test, the `$regex ... $options: 'i'` match. -/
def iContains (hay needle : String) : Bool :=
  containsSeg hay.toLower.toList needle.toLower.toList

/-- The Mongo query object GET /api/expenses builds: owner scoping always,
then optional category, inclusive date range, and title/description
search. A record with no description cannot match the search regex. -/
def matchesQuery (uid : Nat) (q : ExpenseQuery) (e : Expense) : Bool :=
  e.userId == uid &&
  (match q.category with | none => true | some c => e.category == c) &&
  (match q.startDate with | none => true | some d => dLe d e.date) &&
  (match q.endDate with | none => true | some d => dLe e.date d) &&
  (match q.search with
   | none => true
   | some t =>
     iContains e.title t ||
       (match e.description with | none => false | some d => iContains d t))

/-- Response of GET /api/expenses. -/
structure ExpenseListResp where
  expenses : List Expense
  totalPages : Nat
  currentPage : Nat
  total : Nat
deriving DecidableEq, Repr

/-- GET /api/expenses: filter, sort, then `skip (page−1)·limit` and
`limit limit`; `total` from `countDocuments` on the same query and
`totalPages = ceil(total / limit)`. -/
def listExpenses (uid : Nat) (q : ExpenseQuery) (s : Store) : ExpenseListResp :=
  let matching := s.expenses.filter (matchesQuery uid q)
  let le := fun a b =>
    if q.sortDesc then fieldLe q.sortField b a else fieldLe q.sortField a b
  let sorted := sortWith le matching
  { expenses := (sorted.drop ((q.page - 1) * q.limit)).take q.limit,
    totalPages := (matching.length + q.limit - 1) / q.limit,
    currentPage := q.page,
    total := matching.length }

/-- Request body of POST /api/expenses. `amount = none` models a missing or
non-numeric amount (what `isNumeric` rejects); `category = none` a missing
category (what `notEmpty` rejects). -/
structure ExpenseInput where
  title : String
  amount : Option Int
  description : Option String
  category : Option Nat
  date : Option DateT
  paymentMethod : Option String
  tags : Option (List String)
deriving DecidableEq, Repr

/-- POST /api/expenses: express-validator checks title/amount/category,
then the ownership check on the category, then `Expense.create`. The
schema's `min: 0` on `amount` makes `create` throw on a negative amount,
which the catch block turns into a 500; no record is written then. -/
def createExpense (uid newId : Nat) (now : DateT) (inp : ExpenseInput) (s : Store) :
    MutResult Expense × Store :=
  match inp.amount, inp.category with
  | some a, some cid =>
    if inp.title = "" then (.validationFailed, s)
    else if (s.categories.find? (fun c => c._id == cid && c.userId == uid)).isNone then
      (.invalidCategory, s)
    else if a < 0 then (.serverError, s)
    else
      let e : Expense :=
        { _id := newId, title := inp.title, amount := a,
          description := inp.description, category := cid, userId := uid,
          date := inp.date.getD now,
          paymentMethod := inp.paymentMethod.getD "cash",
          tags := inp.tags.getD [] }
      (.ok e, { s with expenses := s.expenses ++ [e] })
  | _, _ => (.validationFailed, s)

/-- Apply an expense patch (`$set` of the defined fields). -/
def applyExpensePatch (p : ExpenseInput) (e : Expense) : Expense :=
  { e with
    title := if p.title = "" then e.title else p.title,
    amount := p.amount.getD e.amount,
    description := match p.description with | none => e.description | some d => some d,
    category := p.category.getD e.category,
    date := p.date.getD e.date,
    paymentMethod := p.paymentMethod.getD e.paymentMethod,
    tags := p.tags.getD e.tags }

/-- PUT /api/expenses/:id: re-validate ownership of a supplied category,
then `findOneAndUpdate {_id, userId}` with `runValidators`, whose `min: 0`
check turns a negative supplied amount into a thrown error (500). -/
def updateExpense (uid id : Nat) (p : ExpenseInput) (s : Store) :
    MutResult Expense × Store :=
  match p.category with
  | some cid =>
    if (s.categories.find? (fun c => c._id == cid && c.userId == uid)).isNone then
      (.invalidCategory, s)
    else updateExpenseRun uid id p s
  | none => updateExpenseRun uid id p s
where
  /-- The `findOneAndUpdate` stage shared by both branches. -/
  updateExpenseRun (uid id : Nat) (p : ExpenseInput) (s : Store) :
      MutResult Expense × Store :=
    if (p.amount.getD 0) < 0 then (.serverError, s)
    else
      let r := updateFirst (fun e => e._id == id && e.userId == uid)
        (applyExpensePatch p) s.expenses
      match r.1 with
      | none => (.notFound, s)
      | some e => (.ok e, { s with expenses := r.2 })

/-- `new Date(y, m, 1)` for the first of the month containing `now`. -/
def startOfMonth (now : DateT) : DateT := ⟨now.year, now.month, 1⟩

/-- `new Date(y, 0, 1)`: January 1 of the year containing `now`. -/
def startOfYear (now : DateT) : DateT := ⟨now.year, 1, 1⟩

/-- `$match` stage of the dashboard monthly aggregate: the caller's
expenses dated on or after the first of the current month (no upper
bound). -/
def matchMonthly (uid : Nat) (now : DateT) (s : Store) : List Expense :=
  s.expenses.filter (fun e => e.userId == uid && dLe (startOfMonth now) e.date)

/-- `$match` stage of the dashboard yearly aggregate: the caller's
expenses dated on or after January 1 of the current year (no upper
bound). -/
def matchYearly (uid : Nat) (now : DateT) (s : Store) : List Expense :=
  s.expenses.filter (fun e => e.userId == uid && dLe (startOfYear now) e.date)

/-- `$match` stage of the monthly chart: the caller's expenses dated in
`[Jan 1 year, Jan 1 (year+1))`. -/
def matchChart (uid year : Nat) (s : Store) : List Expense :=
  s.expenses.filter (fun e =>
    e.userId == uid && dLe ⟨year, 1, 1⟩ e.date && dLt e.date ⟨year + 1, 1, 1⟩)

/-- `$match` stage of the trends aggregate: the caller's expenses dated on
or after `startDate = now − period days` (the handler computes `startDate`
from the clock; it enters the embedding as a parameter). -/
def matchTrends (uid : Nat) (startDate : DateT) (s : Store) : List Expense :=
  s.expenses.filter (fun e => e.userId == uid && dLe startDate e.date)

/-- All expenses of one user, the `find {userId}` of the recent-expenses
query. -/
def userExpenses (uid : Nat) (s : Store) : List Expense :=
  s.expenses.filter (fun e => e.userId == uid)

/-- Sum of the amounts in a list of expenses (`$sum: '$amount'`). -/
def amountSum (l : List Expense) : Int :=
  (l.map (fun e => e.amount)).sum

/-- A `$group {_id: null, total, count}` aggregate: Mongo yields no group
at all over an empty match, and one `(total, count)` row otherwise. -/
def aggTotal (l : List Expense) : Option (Int × Nat) :=
  if l.isEmpty then none else some (amountSum l, l.length)

/-- `agg[0]?.total || 0`. -/
def aggAmount (r : Option (Int × Nat)) : Int :=
  match r with | none => 0 | some p => p.1

/-- `agg[0]?.count || 0`. -/
def aggCount (r : Option (Int × Nat)) : Nat :=
  match r with | none => 0 | some p => p.2

/-- `data.monthly` of the dashboard response. -/
structure MonthlyStats where
  total : Int
  count : Nat
  budget : Int
  remaining : Int
deriving DecidableEq, Repr

/-- `data.yearly` of the dashboard response. -/
structure YearlyStats where
  total : Int
  count : Nat
deriving DecidableEq, Repr

/-- One row of the dashboard category breakdown after `$lookup`/`$project`. -/
structure BreakdownEntry where
  _id : Nat
  total : Int
  count : Nat
  name : String
  color : String
  icon : String
deriving DecidableEq, Repr

/-- GET /api/reports/dashboard response `data`. -/
structure DashboardData where
  monthly : MonthlyStats
  yearly : YearlyStats
  categoryBreakdown : List BreakdownEntry
  recentExpenses : List Expense
deriving DecidableEq, Repr

/-- Category breakdown for the current month: group the monthly match by
category id, join each group to its category document by `_id` (a
`$lookup` over the whole categories collection, with `$unwind` dropping
groups whose category no longer exists), then sort by total descending. -/
def categoryBreakdown (uid : Nat) (now : DateT) (s : Store) : List BreakdownEntry :=
  let l := matchMonthly uid now s
  let keys := ((l.map (fun e => e.category)).dedup)
  let rows := keys.filterMap (fun k =>
    (s.categories.find? (fun c => c._id == k)).map (fun c =>
      { _id := k,
        total := amountSum (l.filter (fun e => e.category == k)),
        count := (l.filter (fun e => e.category == k)).length,
        name := c.name, color := c.color, icon := c.icon }))
  sortWith (fun a b => b.total ≤ a.total) rows

/-- GET /api/reports/dashboard: four independent read-only aggregates over
the caller's expenses, assembled with `?.total || 0` defaults and
`remaining = monthlyBudget − monthlyTotal` (not clamped). -/
def dashboard (u : User) (now : DateT) (s : Store) : DashboardData :=
  let monthlyAgg := aggTotal (matchMonthly u._id now s)
  let yearlyAgg := aggTotal (matchYearly u._id now s)
  { monthly :=
      { total := aggAmount monthlyAgg,
        count := aggCount monthlyAgg,
        budget := u.monthlyBudget,
        remaining := u.monthlyBudget - aggAmount monthlyAgg },
    yearly :=
      { total := aggAmount yearlyAgg,
        count := aggCount yearlyAgg },
    categoryBreakdown := categoryBreakdown u._id now s,
    recentExpenses := (sortWith (fun a b => dLe b.date a.date) (userExpenses u._id s)).take 5 }

/-- The fixed `months` label table of the monthly-chart handler. -/
def monthNames : List String :=
  ["Jan", "Feb", "Mar", "Apr", "May", "Jun",
   "Jul", "Aug", "Sep", "Oct", "Nov", "Dec"]

/-- One entry of the monthly-chart response. -/
structure ChartEntry where
  month : String
  amount : Int
  count : Nat
deriving DecidableEq, Repr

/-- The `$group {_id: $month}` stage of the monthly chart: one
`(month, total, count)` row per month value present, `$sort`ed by key. -/
def groupByMonth (l : List Expense) : List (Nat × Int × Nat) :=
  (sortWith Nat.ble ((l.map (fun e => e.date.month)).dedup)).map (fun m =>
    (m, amountSum (l.filter (fun e => e.date.month == m)),
     (l.filter (fun e => e.date.month == m)).length))

/-- GET /api/reports/monthly-chart: group the year's expenses by calendar
month, then materialize all 12 labels, gap-filling absent months with
`{amount: 0, count: 0}` via `data?.total || 0`. -/
def monthlyChart (uid year : Nat) (s : Store) : List ChartEntry :=
  let monthlyData := groupByMonth (matchChart uid year s)
  (List.range 12).map (fun i =>
    let data := monthlyData.find? (fun item => item.1 == i + 1)
    { month := monthNames.getD i "",
      amount := match data with | none => 0 | some d => d.2.1,
      count := match data with | none => 0 | some d => d.2.2 })

/-- One entry of the trends response: `_id` is the `%Y-%m-%d` day key
(modelled as the calendar date itself; ISO strings sort exactly as `dLe`
orders valid dates). -/
structure TrendEntry where
  day : DateT
  total : Int
  count : Nat
deriving DecidableEq, Repr

/-- GET /api/reports/trends: group the windowed expenses by calendar day,
`$sort` ascending by day key; days with no expenses yield no entry. -/
def trends (uid : Nat) (startDate : DateT) (s : Store) : List TrendEntry :=
  let l := matchTrends uid startDate s
  (sortWith dLe ((l.map (fun e => e.date)).dedup)).map (fun d =>
    { day := d,
      total := amountSum (l.filter (fun e => e.date == d)),
      count := (l.filter (fun e => e.date == d)).length })

/-! ## routes/auth.js (registration and category seeding) -/

/-- The fixed `defaultCategories` table: (name, icon, color). -/
def defaultCategories : List (String × String × String) :=
  [("Food & Dining", "fas fa-utensils", "#e74c3c"),
   ("Transportation", "fas fa-car", "#3498db"),
   ("Shopping", "fas fa-shopping-bag", "#f39c12"),
   ("Entertainment", "fas fa-film", "#9b59b6"),
   ("Bills & Utilities", "fas fa-file-invoice", "#34495e"),
   ("Healthcare", "fas fa-heartbeat", "#e67e22"),
   ("Education", "fas fa-graduation-cap", "#2ecc71"),
   ("Other", "fas fa-ellipsis-h", "#95a5a6")]

/-- Turn a tail of the default-category table into seeded records with
fresh ids `base, base+1, ...`. -/
def seedFrom (uid : Nat) : Nat → List (String × String × String) → List Category
  | _, [] => []
  | base, d :: ds =>
    { _id := base, name := d.1, description := none,
      color := d.2.2, icon := d.2.1, userId := uid, isDefault := true }
      :: seedFrom uid (base + 1) ds

/-- `defaultCategories.map(cat => ({...cat, userId, isDefault: true}))`:
the batch handed to one `insertMany`. -/
def seedCategories (uid base : Nat) : List Category :=
  seedFrom uid base defaultCategories

/-- Request body of POST /api/auth/register. `emailFormatOk` stands for the
verdict of the external `isEmail` validator. -/
structure RegisterInput where
  username : String
  email : String
  emailFormatOk : Bool
  password : String
  fullName : String
  monthlyBudget : Option Int
  currency : Option String
deriving DecidableEq, Repr

/-- The express-validator rule list of the register route. -/
def registerValid (inp : RegisterInput) : Bool :=
  3 ≤ inp.username.length && inp.emailFormatOk &&
    6 ≤ inp.password.length && inp.fullName ≠ ""

/-- POST /api/auth/register: validate, reject an existing email or
username, create the user (password stored hashed), then `insertMany` the
eight seeded default categories in one batch. Returns the new user id. -/
def register (newUid catBase : Nat) (hash : String → String)
    (inp : RegisterInput) (s : Store) : MutResult Nat × Store :=
  if !registerValid inp then (.validationFailed, s)
  else if (s.users.find? (fun u =>
      u.email == inp.email || u.username == inp.username)).isSome then
    (.conflict, s)
  else
    let u : User :=
      { _id := newUid, username := inp.username, email := inp.email,
        password := hash inp.password, fullName := inp.fullName,
        monthlyBudget := inp.monthlyBudget.getD 0,
        currency := inp.currency.getD "INR" }
    (.ok newUid,
      { s with
        users := s.users ++ [u],
        categories := s.categories ++ seedCategories newUid catBase })

/-! ## Helper lemmas about the store primitives -/

theorem removeFirst_fst_eq_none_iff {α : Type} {p : α → Bool} {l : List α} :
    (removeFirst p l).1 = none ↔ ∀ x ∈ l, p x = false := by
  induction l with
  | nil => simp [removeFirst]
  | cons x xs ih =>
    by_cases hx : p x = true
    · simp [removeFirst, hx]
    · simp only [Bool.not_eq_true] at hx
      simp [removeFirst, hx, ih]

theorem removeFirst_snd_of_none {α : Type} {p : α → Bool} {l : List α}
    (h : (removeFirst p l).1 = none) : (removeFirst p l).2 = l := by
  induction l with
  | nil => rfl
  | cons x xs ih =>
    by_cases hx : p x = true
    · simp [removeFirst, hx] at h
    · simp only [Bool.not_eq_true] at hx
      simp only [removeFirst, hx, Bool.false_eq_true, if_false] at h ⊢
      simp [ih h]

theorem mem_removeFirst_snd {α : Type} {p : α → Bool} {l : List α} {x : α}
    (hx : x ∈ l) (hpx : p x = false) : x ∈ (removeFirst p l).2 := by
  induction l with
  | nil => cases hx
  | cons y ys ih =>
    by_cases hy : p y = true
    · simp only [removeFirst, hy, if_true]
      rcases List.mem_cons.mp hx with rfl | h
      · rw [hpx] at hy; cases hy
      · exact h
    · simp only [Bool.not_eq_true] at hy
      simp only [removeFirst, hy, Bool.false_eq_true, if_false]
      rcases List.mem_cons.mp hx with rfl | h
      · exact List.mem_cons_self _ _
      · exact List.mem_cons_of_mem _ (ih h)

theorem mem_updateFirst_snd {α : Type} {p : α → Bool} {f : α → α} {l : List α} {x : α}
    (hx : x ∈ (updateFirst p f l).2) : x ∈ l ∨ ∃ y ∈ l, x = f y := by
  induction l with
  | nil => cases hx
  | cons y ys ih =>
    by_cases hy : p y = true
    · simp only [updateFirst, hy, if_true] at hx
      rcases List.mem_cons.mp hx with rfl | h
      · exact Or.inr ⟨y, List.mem_cons_self _ _, rfl⟩
      · exact Or.inl (List.mem_cons_of_mem _ h)
    · simp only [Bool.not_eq_true] at hy
      simp only [updateFirst, hy, Bool.false_eq_true, if_false] at hx
      rcases List.mem_cons.mp hx with rfl | h
      · exact Or.inl (List.mem_cons_self _ _)
      · rcases ih h with h' | ⟨z, hz, rfl⟩
        · exact Or.inl (List.mem_cons_of_mem _ h')
        · exact Or.inr ⟨z, List.mem_cons_of_mem _ hz, rfl⟩

theorem mem_insertSorted {α : Type} {le : α → α → Bool} {x a : α} {l : List α} :
    x ∈ insertSorted le a l ↔ x = a ∨ x ∈ l := by
  induction l with
  | nil => simp [insertSorted]
  | cons y ys ih =>
    by_cases h : le a y = true
    · simp [insertSorted, h, List.mem_cons]
    · simp only [Bool.not_eq_true] at h
      simp only [insertSorted, h, Bool.false_eq_true, if_false, List.mem_cons, ih]
      tauto

theorem mem_sortWith {α : Type} {le : α → α → Bool} {x : α} {l : List α} :
    x ∈ sortWith le l ↔ x ∈ l := by
  induction l with
  | nil => simp [sortWith]
  | cons y ys ih => simp [sortWith, mem_insertSorted, ih]

theorem length_insertSorted {α : Type} (le : α → α → Bool) (a : α) (l : List α) :
    (insertSorted le a l).length = l.length + 1 := by
  induction l with
  | nil => rfl
  | cons y ys ih =>
    by_cases h : le a y = true
    · simp [insertSorted, h]
    · simp only [Bool.not_eq_true] at h
      simp [insertSorted, h, ih]

theorem length_sortWith {α : Type} (le : α → α → Bool) (l : List α) :
    (sortWith le l).length = l.length := by
  induction l with
  | nil => rfl
  | cons y ys ih => simp [sortWith, length_insertSorted, ih]

theorem pairwise_insertSorted {α : Type} {le : α → α → Bool}
    (htot : ∀ a b, le a b || le b a)
    (htrans : ∀ a b c, le a b = true → le b c = true → le a c = true)
    {a : α} {l : List α} (h : List.Pairwise (fun x y => le x y = true) l) :
    List.Pairwise (fun x y => le x y = true) (insertSorted le a l) := by
  induction l with
  | nil => simp [insertSorted]
  | cons y ys ih =>
    rcases List.pairwise_cons.mp h with ⟨hy, hys⟩
    by_cases hle : le a y = true
    · simp only [insertSorted, hle, if_true]
      refine List.pairwise_cons.mpr ⟨?_, h⟩
      intro z hz
      rcases List.mem_cons.mp hz with rfl | hz'
      · exact hle
      · exact htrans a y z hle (hy z hz')
    · have hya : le y a = true := by
        have := htot a y
        simp only [Bool.or_eq_true] at this
        tauto
      simp only [insertSorted, hle, Bool.false_eq_true, if_false]
      refine List.pairwise_cons.mpr ⟨?_, ih hys⟩
      intro z hz
      rcases mem_insertSorted.mp hz with rfl | hz'
      · exact hya
      · exact hy z hz'

theorem pairwise_sortWith {α : Type} {le : α → α → Bool}
    (htot : ∀ a b, le a b || le b a)
    (htrans : ∀ a b c, le a b = true → le b c = true → le a c = true)
    (l : List α) :
    List.Pairwise (fun x y => le x y = true) (sortWith le l) := by
  induction l with
  | nil => simp [sortWith]
  | cons y ys ih => exact pairwise_insertSorted htot htrans ih

theorem dLe_total : ∀ a b : DateT, dLe a b || dLe b a := by
  intro a b
  simp only [dLe, Nat.blt_eq, Nat.ble_eq, beq_iff_eq, Bool.or_eq_true,
    Bool.and_eq_true, decide_eq_true_eq]
  omega

theorem dLe_trans : ∀ a b c : DateT,
    dLe a b = true → dLe b c = true → dLe a c = true := by
  intro a b c
  simp only [dLe, Nat.blt_eq, Nat.ble_eq, beq_iff_eq, Bool.or_eq_true,
    Bool.and_eq_true, decide_eq_true_eq]
  omega

theorem dLe_refl : ∀ a : DateT, dLe a a = true := by
  intro a
  simp [dLe]

/-! ## Helper lemmas about the aggregation stages -/

theorem aggAmount_aggTotal (l : List Expense) : aggAmount (aggTotal l) = amountSum l := by
  cases l with
  | nil => rfl
  | cons e t => rfl

theorem aggCount_aggTotal (l : List Expense) : aggCount (aggTotal l) = l.length := by
  cases l with
  | nil => rfl
  | cons e t => rfl

theorem find?_beq_nat (m : Nat) (keys : List Nat) :
    keys.find? (fun k => k == m) = if m ∈ keys then some m else none := by
  induction keys with
  | nil => rfl
  | cons k ks ih =>
    by_cases hk : k = m
    · subst hk
      simp [List.find?_cons]
    · have : (k == m) = false := beq_eq_false_iff_ne.mpr hk
      simp only [List.find?_cons, this]
      rw [ih]
      by_cases hm : m ∈ ks
      · simp [hm, List.mem_cons]
      · have : m ∉ k :: ks := by
          intro h
          rcases List.mem_cons.mp h with h' | h'
          · exact hk h'.symm
          · exact hm h'
        simp [hm, this]

theorem find?_fst_map {β : Type} (g : Nat → β) (m : Nat) (keys : List Nat) :
    ((keys.map (fun k => (k, g k))).find? (fun it => it.1 == m)) =
      (keys.find? (fun k => k == m)).map (fun k => (k, g k)) := by
  induction keys with
  | nil => rfl
  | cons k ks ih =>
    by_cases hk : (k == m) = true
    · simp [List.find?_cons, hk]
    · simp only [Bool.not_eq_true] at hk
      simp [List.find?_cons, hk, ih]

theorem list_sum_map_add {α : Type} (f g : α → Int) (l : List α) :
    (l.map (fun x => f x + g x)).sum = (l.map f).sum + (l.map g).sum := by
  induction l with
  | nil => simp
  | cons x xs ih =>
    simp only [List.map_cons, List.sum_cons, ih]
    ring

theorem sum_indicator_range (n m : Nat) (a : Int) :
    ((List.range n).map (fun i => if m == i + 1 then a else 0)).sum =
      if 1 ≤ m ∧ m ≤ n then a else 0 := by
  induction n with
  | zero =>
    have h0 : ¬(1 ≤ m ∧ m = 0) := by omega
    simp [h0]
  | succ k ih =>
    rw [List.range_succ, List.map_append, List.sum_append, ih]
    by_cases hm : m = k + 1
    · subst hm
      have h1 : ¬(1 ≤ k + 1 ∧ k + 1 ≤ k) := by omega
      have h2 : 1 ≤ k + 1 ∧ k + 1 ≤ k + 1 := by omega
      simp only [List.map_cons, List.map_nil, List.sum_cons, List.sum_nil,
        beq_self_eq_true, if_true]
      rw [if_neg h1, if_pos h2]
      ring
    · have hb : (m == k + 1) = false := beq_eq_false_iff_ne.mpr hm
      have heq : (1 ≤ m ∧ m ≤ k + 1) ↔ (1 ≤ m ∧ m ≤ k) := by omega
      simp only [List.map_cons, List.map_nil, List.sum_cons, List.sum_nil, hb,
        Bool.false_eq_true, if_false]
      rw [if_congr heq rfl rfl]
      ring

theorem amountSum_filter_cons (e : Expense) (t : List Expense) (p : Expense → Bool) :
    amountSum ((e :: t).filter p) =
      (if p e then e.amount else 0) + amountSum (t.filter p) := by
  by_cases hp : p e = true
  · simp [List.filter_cons, hp, amountSum]
  · simp only [Bool.not_eq_true] at hp
    simp [List.filter_cons, hp, amountSum]

theorem sum_month_partition (l : List Expense)
    (h : ∀ e ∈ l, 1 ≤ e.date.month ∧ e.date.month ≤ 12) :
    ((List.range 12).map
        (fun i => amountSum (l.filter (fun e => e.date.month == i + 1)))).sum =
      amountSum l := by
  induction l with
  | nil => simp [amountSum]
  | cons e t ih =>
    have he := h e (List.mem_cons_self e t)
    have ht : ∀ x ∈ t, 1 ≤ x.date.month ∧ x.date.month ≤ 12 :=
      fun x hx => h x (List.mem_cons_of_mem e hx)
    have step : ((List.range 12).map
        (fun i => amountSum ((e :: t).filter (fun x => x.date.month == i + 1)))).sum =
        ((List.range 12).map
          (fun i => (if e.date.month == i + 1 then e.amount else 0) +
            amountSum (t.filter (fun x => x.date.month == i + 1)))).sum := by
      refine congrArg List.sum (List.map_congr_left ?_)
      intro i _
      exact amountSum_filter_cons e t _
    rw [step, list_sum_map_add, ih ht, sum_indicator_range]
    simp only [he, and_self, if_true]
    simp [amountSum]

theorem monthlyChart_entries (uid y : Nat) (s : Store) :
    (monthlyChart uid y s).map (fun en => (en.amount, en.count)) =
      (List.range 12).map (fun i =>
        (amountSum ((matchChart uid y s).filter (fun e => e.date.month == i + 1)),
         ((matchChart uid y s).filter (fun e => e.date.month == i + 1)).length)) := by
  unfold monthlyChart groupByMonth
  rw [List.map_map]
  refine List.map_congr_left ?_
  intro i _
  have hfind := find?_fst_map
    (fun m => (amountSum ((matchChart uid y s).filter (fun e => e.date.month == m)),
      ((matchChart uid y s).filter (fun e => e.date.month == m)).length))
    (i + 1) (sortWith Nat.ble (((matchChart uid y s).map (fun e => e.date.month)).dedup))
  simp only [Function.comp_apply, hfind, find?_beq_nat]
  by_cases hmem :
      (i + 1) ∈ sortWith Nat.ble (((matchChart uid y s).map (fun e => e.date.month)).dedup)
  · simp [hmem]
  · have hnil : (matchChart uid y s).filter (fun e => e.date.month == i + 1) = [] := by
      rw [List.filter_eq_nil_iff]
      intro e he hbe
      apply hmem
      rw [mem_sortWith, List.mem_dedup]
      exact List.mem_map.mpr ⟨e, he, by simpa using hbe⟩
    simp [hmem, hnil, amountSum]

theorem monthlyChart_labels (uid y : Nat) (s : Store) :
    (monthlyChart uid y s).map (fun en => en.month) = monthNames := by
  unfold monthlyChart
  rw [List.map_map]
  rfl

theorem monthlyChart_length (uid y : Nat) (s : Store) :
    (monthlyChart uid y s).length = 12 := by
  unfold monthlyChart
  rw [List.length_map, List.length_range]

theorem month_bounds_of_valid {s : Store} (uid y : Nat)
    (hval : ∀ e ∈ s.expenses, dateValid e.date = true) :
    ∀ e ∈ matchChart uid y s, 1 ≤ e.date.month ∧ e.date.month ≤ 12 := by
  intro e he
  have hes : e ∈ s.expenses := (List.mem_filter.mp he).1
  have hv := hval e hes
  simp only [dateValid, Bool.and_eq_true, decide_eq_true_eq] at hv
  exact ⟨hv.1.1.1, hv.1.1.2⟩

theorem monthlyChart_sum (uid y : Nat) (s : Store)
    (hval : ∀ e ∈ s.expenses, dateValid e.date = true) :
    ((monthlyChart uid y s).map (fun en => en.amount)).sum =
      amountSum (matchChart uid y s) := by
  have h1 : (monthlyChart uid y s).map (fun en => en.amount) =
      ((monthlyChart uid y s).map (fun en => (en.amount, en.count))).map Prod.fst := by
    rw [List.map_map]
    rfl
  rw [h1, monthlyChart_entries, List.map_map]
  have h2 : ((List.range 12).map
      ((fun p : Int × Nat => p.fst) ∘ (fun i =>
        (amountSum ((matchChart uid y s).filter (fun e => e.date.month == i + 1)),
         ((matchChart uid y s).filter (fun e => e.date.month == i + 1)).length)))) =
      (List.range 12).map (fun i =>
        amountSum ((matchChart uid y s).filter (fun e => e.date.month == i + 1))) := by
    refine List.map_congr_left ?_
    intro i _
    rfl
  rw [h2]
  exact sum_month_partition _ (month_bounds_of_valid uid y hval)

theorem matchChart_eq_matchYearly (uid : Nat) (now : DateT) (s : Store)
    (hb : ∀ e ∈ s.expenses, e.userId = uid → dLt e.date ⟨now.year + 1, 1, 1⟩ = true) :
    matchChart uid now.year s = matchYearly uid now s := by
  unfold matchChart matchYearly startOfYear
  refine List.filter_congr ?_
  intro e he
  by_cases hu : e.userId = uid
  · have hlt := hb e he hu
    simp [hu, hlt]
  · have hf : (e.userId == uid) = false := beq_eq_false_iff_ne.mpr hu
    simp [hf]

theorem dashboard_yearly_total (u : User) (now : DateT) (s : Store) :
    (dashboard u now s).yearly.total = amountSum (matchYearly u._id now s) := by
  simp [dashboard, aggAmount_aggTotal]

theorem dashboard_monthly_fields (u : User) (now : DateT) (s : Store) :
    (dashboard u now s).monthly.total = amountSum (matchMonthly u._id now s) ∧
    (dashboard u now s).monthly.count = (matchMonthly u._id now s).length ∧
    (dashboard u now s).monthly.remaining =
      u.monthlyBudget - amountSum (matchMonthly u._id now s) := by
  refine ⟨?_, ?_, ?_⟩ <;> simp [dashboard, aggAmount_aggTotal, aggCount_aggTotal]

/-! ## Claim C1: ownership isolation -/

theorem not_mem_user_filter {u1 u2 : Nat} {e : Expense} {l : List Expense}
    (hne : u1 ≠ u2) (heu : e.userId = u2) (p : Expense → Bool)
    (hp : ∀ x, p x = true → (x.userId == u1) = true) :
    e ∉ l.filter p := by
  intro hmem
  have := (List.mem_filter.mp hmem).2
  have := hp e this
  rw [beq_iff_eq] at this
  exact hne (this ▸ heu ▸ this.symm ▸ rfl)

theorem removeFirst_fst_some {α : Type} {p : α → Bool} {l : List α} {a : α}
    (h : (removeFirst p l).1 = some a) : a ∈ l ∧ p a = true := by
  induction l with
  | nil => cases h
  | cons x xs ih =>
    by_cases hx : p x = true
    · simp only [removeFirst, hx, if_true] at h
      cases h
      exact ⟨List.mem_cons_self _ _, hx⟩
    · simp only [Bool.not_eq_true] at hx
      simp only [removeFirst, hx, Bool.false_eq_true, if_false] at h
      rcases ih h with ⟨hm, hp⟩
      exact ⟨List.mem_cons_of_mem _ hm, hp⟩

theorem deleteCategory_of_none {uid id : Nat} {s : Store}
    (hr : (removeFirst
      (fun c : Category => c._id == id && c.userId == uid && !c.isDefault)
      s.categories).1 = none) :
    deleteCategory uid id s = (.notFound, s) := by
  simp only [deleteCategory, hr]

theorem deleteCategory_of_some {uid id : Nat} {s : Store} {c0 : Category}
    (hr : (removeFirst
      (fun c : Category => c._id == id && c.userId == uid && !c.isDefault)
      s.categories).1 = some c0) :
    deleteCategory uid id s = (.ok c0,
      { s with categories := (removeFirst
          (fun c : Category => c._id == id && c.userId == uid && !c.isDefault)
          s.categories).2 }) := by
  simp only [deleteCategory, hr]

/-- C2: category delete 404s exactly when every stored category either has
a different id, is not the caller's, or is a default; on 404 nothing
changes; and a default category survives every delete request. -/
theorem claim_c2_delete_protects_defaults (uid id : Nat) (s : Store) :
    ((deleteCategory uid id s).1 = .notFound ↔
      ∀ c ∈ s.categories, c._id = id → c.userId = uid → c.isDefault = true) ∧
    ((deleteCategory uid id s).1 = .notFound → (deleteCategory uid id s).2 = s) ∧
    (∀ c ∈ s.categories, c.isDefault = true →
      c ∈ (deleteCategory uid id s).2.categories) := by
  refine ⟨?_, ?_, ?_⟩
  · cases hr : (removeFirst
        (fun c : Category => c._id == id && c.userId == uid && !c.isDefault)
        s.categories).1 with
    | none =>
      rw [deleteCategory_of_none hr]
      simp only [true_iff]
      intro c hc hcid hcu
      have hall := removeFirst_fst_eq_none_iff.mp hr
      have := hall c hc
      rw [hcid, hcu] at this
      simp at this
      exact this
    | some c0 =>
      rw [deleteCategory_of_some hr]
      simp only [reduceCtorEq, false_iff, not_forall]
      rcases removeFirst_fst_some hr with ⟨hmem, hp⟩
      simp only [Bool.and_eq_true, beq_iff_eq, Bool.not_eq_eq_eq_not,
        Bool.not_true] at hp
      exact ⟨c0, hmem, hp.1.1, hp.1.2, by simp [hp.2]⟩
  · intro hnf
    cases hr : (removeFirst
        (fun c : Category => c._id == id && c.userId == uid && !c.isDefault)
        s.categories).1 with
    | none => rw [deleteCategory_of_none hr]
    | some c0 =>
      rw [deleteCategory_of_some hr] at hnf
      cases hnf
  · intro c hc hdef
    cases hr : (removeFirst
        (fun c : Category => c._id == id && c.userId == uid && !c.isDefault)
        s.categories).1 with
    | none =>
      rw [deleteCategory_of_none hr]
      exact hc
    | some c0 =>
      rw [deleteCategory_of_some hr]
      refine mem_removeFirst_snd hc ?_
      rw [hdef]
      simp

/-- A default category of user 1 used to exercise claim C2. -/
def c2cat : Category :=
  { _id := 3, name := "Other", description := none, color := "#95a5a6",
    icon := "fas fa-ellipsis-h", userId := 1, isDefault := true }

/-- Store holding only the default category. -/
def c2store : Store := { users := [], categories := [c2cat], expenses := [] }

/-- C2 witness: the owner deleting their own default category gets 404 and
the category is still there. -/
theorem claim_c2_witness :
    (deleteCategory 1 3 c2store).1 = .notFound ∧
    (deleteCategory 1 3 c2store).2 = c2store ∧
    c2cat ∈ (deleteCategory 1 3 c2store).2.categories := by
  have h := claim_c2_delete_protects_defaults 1 3 c2store
  have hnf : (deleteCategory 1 3 c2store).1 = .notFound := by
    refine h.1.mpr ?_
    intro c hc _ _
    rcases List.mem_cons.mp hc with rfl | h'
    · rfl
    · cases h'
  exact ⟨hnf, h.2.1 hnf, h.2.2 c2cat (List.mem_cons_self _ _) rfl⟩

/-! ## Claim C3: registration seeds exactly the eight default categories -/

theorem seedFrom_fields (uid : Nat) (ds : List (String × String × String)) :
    ∀ b, ∀ c ∈ seedFrom uid b ds, c.userId = uid ∧ c.isDefault = true := by
  induction ds with
  | nil =>
    intro b c hc
    cases hc
  | cons d t ih =>
    intro b c hc
    rcases List.mem_cons.mp hc with rfl | h
    · exact ⟨rfl, rfl⟩
    · exact ih (b + 1) c h

theorem register_ok_categories (newUid catBase : Nat) (hash : String → String)
    (inp : RegisterInput) (s : Store)
    (hok : (register newUid catBase hash inp s).1 = .ok newUid) :
    (register newUid catBase hash inp s).2.categories =
      s.categories ++ seedCategories newUid catBase := by
  cases hv : registerValid inp with
  | false =>
    have hbad : register newUid catBase hash inp s = (.validationFailed, s) := by
      simp [register, hv]
    rw [hbad] at hok
    cases hok
  | true =>
    cases hf : (s.users.find? (fun u =>
        u.email == inp.email || u.username == inp.username)).isSome with
    | true =>
      have hbad : register newUid catBase hash inp s = (.conflict, s) := by
        simp [register, hv, hf]
      rw [hbad] at hok
      cases hok
    | false =>
      simp [register, hv, hf]

/-- C3: a successful registration of a fresh user leaves that user with
exactly the eight seeded default categories — the fixed names in order,
every one `isDefault = true` — inserted as one batch, and nothing else. -/
theorem claim_c3_registration_seeds_defaults
    (newUid catBase : Nat) (hash : String → String) (inp : RegisterInput) (s : Store)
    (hfresh : ∀ c ∈ s.categories, c.userId ≠ newUid)
    (hok : (register newUid catBase hash inp s).1 = .ok newUid) :
    ((register newUid catBase hash inp s).2.categories.filter
        (fun c => c.userId == newUid)) = seedCategories newUid catBase ∧
    (seedCategories newUid catBase).length = 8 ∧
    (seedCategories newUid catBase).map (fun c => c.name) =
      ["Food & Dining", "Transportation", "Shopping", "Entertainment",
       "Bills & Utilities", "Healthcare", "Education", "Other"] ∧
    (∀ c ∈ seedCategories newUid catBase, c.isDefault = true ∧ c.userId = newUid) := by
  refine ⟨?_, ?_, ?_, ?_⟩
  · rw [register_ok_categories newUid catBase hash inp s hok, List.filter_append]
    have h1 : s.categories.filter (fun c => c.userId == newUid) = [] := by
      rw [List.filter_eq_nil_iff]
      intro c hc
      simp only [beq_iff_eq]
      exact fun h => hfresh c hc h
    have h2 : (seedCategories newUid catBase).filter (fun c => c.userId == newUid) =
        seedCategories newUid catBase := by
      rw [List.filter_eq_self]
      intro c hc
      rw [beq_iff_eq]
      exact (seedFrom_fields newUid defaultCategories catBase c hc).1
    rw [h1, h2, List.nil_append]
  · simp [seedCategories, seedFrom, defaultCategories]
  · simp [seedCategories, seedFrom, defaultCategories]
  · intro c hc
    have h := seedFrom_fields newUid defaultCategories catBase c hc
    exact ⟨h.2, h.1⟩

/-- Empty store for the C3 witness. -/
def emptyStore : Store := { users := [], categories := [], expenses := [] }

/-- Registration request used in the C3 witness. -/
def c3input : RegisterInput :=
  { username := "alice", email := "alice@mail.test", emailFormatOk := true,
    password := "secret1", fullName := "Alice A",
    monthlyBudget := none, currency := none }

/-- C3 witness: registering a fresh user on an empty store yields exactly
the eight default categories. -/
theorem claim_c3_witness :
    ((register 1 100 (fun p => p) c3input emptyStore).2.categories.filter
        (fun c => c.userId == 1)).map (fun c => (c.name, c.isDefault)) =
      [("Food & Dining", true), ("Transportation", true), ("Shopping", true),
       ("Entertainment", true), ("Bills & Utilities", true), ("Healthcare", true),
       ("Education", true), ("Other", true)] := by
  have h := claim_c3_registration_seeds_defaults 1 100 (fun p => p) c3input emptyStore
    (by intro c hc; cases hc) (by decide)
  rw [h.1]
  decide

/-! ## Claim C4: expense creation with a foreign/unknown category -/

/-- C4: when the supplied category id does not resolve to a category owned
by the caller, expense creation writes nothing; and if the request passed
the field validators (so that the handler reaches the ownership lookup),
the response is exactly the 400 `Invalid category`. -/
theorem claim_c4_invalid_category_no_write
    (uid newId : Nat) (now : DateT) (inp : ExpenseInput) (s : Store)
    (hnores : ∀ c ∈ s.categories, c.userId = uid → inp.category ≠ some c._id) :
    (createExpense uid newId now inp s).2 = s ∧
    (inp.title ≠ "" → ∀ a cid, inp.amount = some a → inp.category = some cid →
      (createExpense uid newId now inp s).1 = .invalidCategory) := by
  have hfind : ∀ cid, inp.category = some cid →
      s.categories.find? (fun c => c._id == cid && c.userId == uid) = none := by
    intro cid hcid
    rw [List.find?_eq_none]
    intro c hc
    simp only [Bool.and_eq_true, beq_iff_eq, not_and]
    intro hid hcu
    exact hnores c hc hcu (by rw [hcid, hid])
  constructor
  · cases ha : inp.amount with
    | none => simp [createExpense, ha]
    | some a =>
      cases hcc : inp.category with
      | none => simp [createExpense, ha, hcc]
      | some cid =>
        simp only [createExpense, ha, hcc]
        by_cases ht : inp.title = ""
        · simp [ht]
        · rw [if_neg ht, hfind cid hcc]
          simp
  · intro ht a cid ha hcc
    simp only [createExpense, ha, hcc]
    rw [if_neg ht, hfind cid hcc]
    simp

/-- A category obviously owned by user 2, not user 1, for claim C4. -/
def c4store : Store :=
  { users := [], categories :=
      [{ _id := 5, name := "Games", description := none, color := "#222222",
         icon := "fas fa-gamepad", userId := 2, isDefault := false }],
    expenses := [] }

/-- Create request of user 1 naming user 2's category. -/
def c4input : ExpenseInput :=
  { title := "Chess set", amount := some 30, description := none,
    category := some 5, date := none, paymentMethod := none, tags := none }

/-- C4 witness: creating against a foreign category returns the 400
`Invalid category` and leaves the store untouched. -/
theorem claim_c4_witness :
    (createExpense 1 7 ⟨2026, 10, 11⟩ c4input c4store).1 = .invalidCategory ∧
    (createExpense 1 7 ⟨2026, 10, 11⟩ c4input c4store).2 = c4store := by
  have h := claim_c4_invalid_category_no_write 1 7 ⟨2026, 10, 11⟩ c4input c4store
    (by decide)
  exact ⟨h.2 (by decide) 30 5 rfl rfl, h.1⟩

/-! ## Claim C5: monthly chart shape and its relation to the yearly total -/

/-- User for the C5 counterexample. -/
def c5user : User :=
  { _id := 1, username := "u", email := "u@mail.test", password := "h",
    fullName := "U", monthlyBudget := 0, currency := "INR" }

/-- Store with one expense dated in the NEXT calendar year (2027) while the
clock reads 2026: the dashboard's yearly window has no upper bound, the
chart's window does. -/
def c5store : Store :=
  { users := [c5user], categories := [],
    expenses :=
      [{ _id := 1, title := "future", amount := 100, description := none,
         category := 1, userId := 1, date := ⟨2027, 5, 1⟩,
         paymentMethod := "cash", tags := [] }] }

/-- C5 counterexample: with one future-dated expense the 12 chart amounts
for the current year sum to 0 while the dashboard yearly total is 100, so
the claimed equality fails as stated. -/
theorem claim_c5_counterexample :
    ((monthlyChart 1 2026 c5store).map (fun en => en.amount)).sum = 0 ∧
    (dashboard c5user ⟨2026, 10, 11⟩ c5store).yearly.total = 100 ∧
    ((monthlyChart 1 2026 c5store).map (fun en => en.amount)).sum ≠
      (dashboard c5user ⟨2026, 10, 11⟩ c5store).yearly.total := by
  refine ⟨by decide, by decide, by decide⟩

/-- C5 (amended): the chart is always exactly the 12 labels Jan..Dec in
order, each month carrying the sum and count of the user's expenses in
that month of year `y` (0/0 for empty months), and the 12 amounts sum to
the user's total over `[Jan 1 y, Jan 1 y+1)`; this equals the dashboard's
yearly total only under the extra premise that no expense of the user is
dated on or after Jan 1 of year `y + 1` (with `y` the clock's year). -/
theorem claim_c5_monthly_chart_amended
    (uid y : Nat) (s : Store)
    (hval : ∀ e ∈ s.expenses, dateValid e.date = true) :
    (monthlyChart uid y s).length = 12 ∧
    (monthlyChart uid y s).map (fun en => en.month) = monthNames ∧
    (monthlyChart uid y s).map (fun en => (en.amount, en.count)) =
      (List.range 12).map (fun i =>
        (amountSum ((matchChart uid y s).filter (fun e => e.date.month == i + 1)),
         ((matchChart uid y s).filter (fun e => e.date.month == i + 1)).length)) ∧
    ((monthlyChart uid y s).map (fun en => en.amount)).sum =
      amountSum (matchChart uid y s) ∧
    (∀ (u : User) (now : DateT), u._id = uid → now.year = y →
      (∀ e ∈ s.expenses, e.userId = uid → dLt e.date ⟨y + 1, 1, 1⟩ = true) →
      ((monthlyChart uid y s).map (fun en => en.amount)).sum =
        (dashboard u now s).yearly.total) := by
  refine ⟨monthlyChart_length uid y s, monthlyChart_labels uid y s,
    monthlyChart_entries uid y s, monthlyChart_sum uid y s hval, ?_⟩
  intro u now hu hy hb
  subst hy
  subst hu
  rw [monthlyChart_sum _ _ s hval, dashboard_yearly_total]
  exact congrArg amountSum (matchChart_eq_matchYearly u._id now s hb)

/-- Store with one valid current-year expense for the C5 witness. -/
def c5wstore : Store :=
  { users := [c5user], categories := [],
    expenses :=
      [{ _id := 1, title := "lunch", amount := 40, description := none,
         category := 1, userId := 1, date := ⟨2026, 3, 9⟩,
         paymentMethod := "cash", tags := [] }] }

/-- C5 witness: on a store whose only expense sits in March of the current
year, the amended theorem gives the 12 labels and the chart total equal to
the dashboard yearly total, 40. -/
theorem claim_c5_witness :
    (monthlyChart 1 2026 c5wstore).length = 12 ∧
    (monthlyChart 1 2026 c5wstore).map (fun en => en.month) = monthNames ∧
    ((monthlyChart 1 2026 c5wstore).map (fun en => en.amount)).sum =
      (dashboard c5user ⟨2026, 10, 11⟩ c5wstore).yearly.total := by
  have h := claim_c5_monthly_chart_amended 1 2026 c5wstore (by decide)
  exact ⟨h.1, h.2.1, h.2.2.2.2 c5user ⟨2026, 10, 11⟩ rfl rfl (by decide)⟩

/-! ## Claim C6: dashboard remaining budget -/

/-- Budget-5000 user for the C6 scenario. -/
def c6user : User :=
  { _id := 1, username := "b", email := "b@mail.test", password := "h",
    fullName := "B", monthlyBudget := 5000, currency := "INR" }

/-- Two current-month expenses of 1200 and 300 (clock: 2026-10-11). -/
def c6store : Store :=
  { users := [c6user], categories := [],
    expenses :=
      [{ _id := 1, title := "rent share", amount := 1200, description := none,
         category := 1, userId := 1, date := ⟨2026, 10, 2⟩,
         paymentMethod := "upi", tags := [] },
       { _id := 2, title := "groceries", amount := 300, description := none,
         category := 1, userId := 1, date := ⟨2026, 10, 8⟩,
         paymentMethod := "cash", tags := [] }] }

/-- Budget-100 user whose 150 expense pushes remaining below zero. -/
def c6user2 : User :=
  { _id := 2, username := "c", email := "c@mail.test", password := "h",
    fullName := "C", monthlyBudget := 100, currency := "INR" }

/-- Store for the negative-remaining instance of C6. -/
def c6store2 : Store :=
  { users := [c6user2], categories := [],
    expenses :=
      [{ _id := 3, title := "repair", amount := 150, description := none,
         category := 1, userId := 2, date := ⟨2026, 10, 5⟩,
         paymentMethod := "card", tags := [] }] }

/-- C6: dashboard `remaining` is exactly `monthlyBudget` minus the sum of
the user's expenses dated on or after the first of the current month —
never clamped, so it goes negative when spending exceeds the budget; in
particular budget 5000 with current-month expenses 1200 and 300 gives
total 1500, count 2, remaining 3500, and budget 100 against 150 gives
remaining −50. -/
theorem claim_c6_dashboard_remaining (u : User) (now : DateT) (s : Store) :
    ((dashboard u now s).monthly.total =
        amountSum (s.expenses.filter
          (fun e => e.userId == u._id && dLe (startOfMonth now) e.date)) ∧
      (dashboard u now s).monthly.count =
        (s.expenses.filter
          (fun e => e.userId == u._id && dLe (startOfMonth now) e.date)).length ∧
      (dashboard u now s).monthly.remaining =
        u.monthlyBudget - amountSum (s.expenses.filter
          (fun e => e.userId == u._id && dLe (startOfMonth now) e.date))) ∧
    (dashboard c6user ⟨2026, 10, 11⟩ c6store).monthly =
      { total := 1500, count := 2, budget := 5000, remaining := 3500 } ∧
    (dashboard c6user2 ⟨2026, 10, 11⟩ c6store2).monthly.remaining = -50 := by
  refine ⟨?_, by decide, by decide⟩
  have h := dashboard_monthly_fields u now s
  unfold matchMonthly at h
  exact h

/-! ## Claim C7: amount validation -/

theorem updateExpense_neg_amount (uid id : Nat) (p : ExpenseInput) (s : Store)
    (a : Int) (ha : p.amount = some a) (hneg : a < 0) :
    ((updateExpense uid id p s).1 = .serverError ∨
      (updateExpense uid id p s).1 = .invalidCategory) ∧
    (updateExpense uid id p s).2 = s := by
  have hneg' : (p.amount.getD 0) < 0 := by
    rw [ha]
    exact hneg
  have hrun : updateExpense.updateExpenseRun uid id p s = (.serverError, s) := by
    simp only [updateExpense.updateExpenseRun, if_pos hneg']
  cases hc : p.category with
  | none =>
    have heq : updateExpense uid id p s = (.serverError, s) := by
      unfold updateExpense
      rw [hc]
      exact hrun
    rw [heq]
    exact ⟨Or.inl rfl, rfl⟩
  | some cid =>
    simp only [updateExpense, hc]
    by_cases hfind :
        ((s.categories.find? (fun c => c._id == cid && c.userId == uid)).isNone) = true
    · rw [if_pos hfind]
      exact ⟨Or.inr rfl, rfl⟩
    · rw [if_neg hfind, hrun]
      exact ⟨Or.inl rfl, rfl⟩

theorem updateExpense_preserves_nonneg (uid id : Nat) (p : ExpenseInput) (s : Store)
    (h : ∀ e ∈ s.expenses, 0 ≤ e.amount) :
    ∀ e ∈ (updateExpense uid id p s).2.expenses, 0 ≤ e.amount := by
  have hrun : ∀ e ∈ (updateExpense.updateExpenseRun uid id p s).2.expenses,
      0 ≤ e.amount := by
    by_cases hneg : (p.amount.getD 0) < 0
    · simp only [updateExpense.updateExpenseRun, if_pos hneg]
      exact h
    · simp only [updateExpense.updateExpenseRun, if_neg hneg]
      cases hr : (updateFirst (fun e => e._id == id && e.userId == uid)
          (applyExpensePatch p) s.expenses).1 with
      | none => exact h
      | some e0 =>
        intro e he
        rcases mem_updateFirst_snd he with hmem | ⟨y, hy, rfl⟩
        · exact h e hmem
        · show 0 ≤ p.amount.getD y.amount
          cases hpa : p.amount with
          | none => exact h y hy
          | some a =>
            rw [hpa] at hneg
            simpa using le_of_not_lt hneg
  cases hc : p.category with
  | none =>
    simp only [updateExpense, hc]
    exact hrun
  | some cid =>
    simp only [updateExpense, hc]
    by_cases hfind :
        ((s.categories.find? (fun c => c._id == cid && c.userId == uid)).isNone) = true
    · rw [if_pos hfind]
      exact h
    · rw [if_neg hfind]
      exact hrun

/-- C7 (amended): a missing/non-numeric amount is rejected by the route
validators with 400 and no write; a negative numeric amount passes the
route validators and is instead stopped by the schema's `min: 0`, which
surfaces as a 500 server error on create (and on update, unless the patch
already died on an invalid category) with no write either way; therefore
stores whose expenses all have non-negative amounts stay that way through
create and update. -/
theorem claim_c7_amount_validation_amended
    (uid newId id : Nat) (now : DateT) (inp : ExpenseInput) (s : Store) :
    (inp.amount = none →
      (createExpense uid newId now inp s).1 = .validationFailed ∧
      (createExpense uid newId now inp s).2 = s) ∧
    (∀ a cid, inp.amount = some a → a < 0 → inp.category = some cid →
      (createExpense uid newId now inp s).2 = s ∧
      (inp.title ≠ "" →
        ((s.categories.find? (fun c => c._id == cid && c.userId == uid)).isNone = false) →
        (createExpense uid newId now inp s).1 = .serverError)) ∧
    (∀ a, inp.amount = some a → a < 0 →
      ((updateExpense uid id inp s).1 = .serverError ∨
        (updateExpense uid id inp s).1 = .invalidCategory) ∧
      (updateExpense uid id inp s).2 = s) ∧
    ((∀ e ∈ s.expenses, 0 ≤ e.amount) →
      (∀ e ∈ (createExpense uid newId now inp s).2.expenses, 0 ≤ e.amount) ∧
      (∀ e ∈ (updateExpense uid id inp s).2.expenses, 0 ≤ e.amount)) := by
  refine ⟨?_, ?_, ?_, ?_⟩
  · intro ha
    constructor <;> simp [createExpense, ha]
  · intro a cid ha hneg hcc
    constructor
    · by_cases ht : inp.title = ""
      · simp [createExpense, ha, hcc, ht]
      · simp only [createExpense, ha, hcc]
        rw [if_neg ht]
        by_cases hfind :
            ((s.categories.find? (fun c => c._id == cid && c.userId == uid)).isNone) = true
        · rw [if_pos hfind]
        · rw [if_neg hfind, if_pos hneg]
    · intro ht hfind
      simp only [createExpense, ha, hcc]
      rw [if_neg ht]
      simp only [hfind, Bool.false_eq_true, if_false, if_pos hneg]
  · intro a ha hneg
    exact updateExpense_neg_amount uid id inp s a ha hneg
  · intro h
    refine ⟨?_, updateExpense_preserves_nonneg uid id inp s h⟩
    cases ha : inp.amount with
    | none =>
      simp only [createExpense, ha]
      exact h
    | some a =>
      cases hcc : inp.category with
      | none =>
        simp only [createExpense, ha, hcc]
        exact h
      | some cid =>
        simp only [createExpense, ha, hcc]
        by_cases ht : inp.title = ""
        · rw [if_pos ht]
          exact h
        · rw [if_neg ht]
          by_cases hfind :
              ((s.categories.find? (fun c => c._id == cid && c.userId == uid)).isNone) = true
          · rw [if_pos hfind]
            exact h
          · rw [if_neg hfind]
            by_cases hneg : a < 0
            · rw [if_pos hneg]
              exact h
            · rw [if_neg hneg]
              intro e he
              rcases List.mem_append.mp he with hmem | hmem
              · exact h e hmem
              · rcases List.mem_singleton.mp hmem with rfl
                exact le_of_not_lt hneg

/-- Store with one category owned by the caller, for claim C7. -/
def c7store : Store :=
  { users := [],
    categories :=
      [{ _id := 1, name := "Food & Dining", description := none,
         color := "#e74c3c", icon := "fas fa-utensils", userId := 1,
         isDefault := true }],
    expenses := [] }

/-- A create request whose amount is numeric but negative. -/
def c7input : ExpenseInput :=
  { title := "refund oops", amount := some (-5), description := none,
    category := some 1, date := none, paymentMethod := none, tags := none }

/-- C7 counterexample: a negative numeric amount is NOT rejected with the
claimed 400 validation response — route validation (`isNumeric` only)
passes, the schema `min: 0` throws inside `create`, and the catch block
answers 500; still nothing is written. -/
theorem claim_c7_counterexample :
    (createExpense 1 9 ⟨2026, 10, 11⟩ c7input c7store).1 = .serverError ∧
    (createExpense 1 9 ⟨2026, 10, 11⟩ c7input c7store).1.status = 500 ∧
    (createExpense 1 9 ⟨2026, 10, 11⟩ c7input c7store).1.status ≠ 400 ∧
    (createExpense 1 9 ⟨2026, 10, 11⟩ c7input c7store).1 ≠ .validationFailed ∧
    (createExpense 1 9 ⟨2026, 10, 11⟩ c7input c7store).2 = c7store := by
  refine ⟨by decide, by decide, by decide, by decide, by decide⟩

/-- C7 witness: the amended theorem applied to the concrete negative-amount
request: 500 response, store untouched. -/
theorem claim_c7_witness :
    (createExpense 1 9 ⟨2026, 10, 11⟩ c7input c7store).2 = c7store ∧
    (createExpense 1 9 ⟨2026, 10, 11⟩ c7input c7store).1 = .serverError := by
  have h := claim_c7_amount_validation_amended 1 9 3 ⟨2026, 10, 11⟩ c7input c7store
  have h2 := h.2.1 (-5) 1 rfl (by decide) rfl
  exact ⟨h2.1, h2.2 (by decide) (by decide)⟩

/-! ## Claim C8: expense list pagination -/

/-- Fifteen matching expenses of user 1 for the C8 scenario. -/
def c8store : Store :=
  { users := [], categories := [],
    expenses := (List.range 15).map (fun i =>
      { _id := i, title := "item", amount := 1, description := none,
        category := 1, userId := 1, date := ⟨2026, 9, 1⟩,
        paymentMethod := "cash", tags := [] }) }

/-- The `page=2, limit=10` query with every other parameter defaulted. -/
def c8query : ExpenseQuery :=
  { page := 2, limit := 10, category := none, startDate := none,
    endDate := none, search := none, sortField := .date, sortDesc := true }

/-- C8: the expense list returns at most `limit` records — exactly the slice
of the sorted matching records starting at offset `(page−1)·limit` — every
one of them matching the query, with `total` the full matching count and
`totalPages = ⌈total / limit⌉`; in particular page 2, limit 10 over 15
matching records yields 5 records, `totalPages = 2`, `total = 15`. -/
theorem claim_c8_pagination (uid : Nat) (q : ExpenseQuery) (s : Store) :
    ((listExpenses uid q s).expenses.length ≤ q.limit ∧
      (listExpenses uid q s).expenses =
        ((sortWith (fun a b =>
            if q.sortDesc then fieldLe q.sortField b a else fieldLe q.sortField a b)
          (s.expenses.filter (matchesQuery uid q))).drop
            ((q.page - 1) * q.limit)).take q.limit ∧
      (∀ e ∈ (listExpenses uid q s).expenses, matchesQuery uid q e = true) ∧
      (listExpenses uid q s).total = (s.expenses.filter (matchesQuery uid q)).length ∧
      (listExpenses uid q s).totalPages = (listExpenses uid q s).total ⌈/⌉ q.limit) ∧
    ((listExpenses 1 c8query c8store).expenses.length = 5 ∧
      (listExpenses 1 c8query c8store).totalPages = 2 ∧
      (listExpenses 1 c8query c8store).total = 15) := by
  refine ⟨⟨?_, rfl, ?_, rfl, ?_⟩, by decide, by decide, by decide⟩
  · exact List.length_take_le _ _
  · intro e he
    have h1 := List.mem_of_mem_take he
    have h2 := List.mem_of_mem_drop h1
    have h3 := mem_sortWith.mp h2
    exact (List.mem_filter.mp h3).2
  · show ((s.expenses.filter (matchesQuery uid q)).length + q.limit - 1) / q.limit =
      (s.expenses.filter (matchesQuery uid q)).length ⌈/⌉ q.limit
    rw [Nat.ceilDiv_eq_add_pred_div]

/-! ## Claim C9: trends are not gap-filled -/

/-- Expenses on day −10 and day −2 relative to a 2026-10-11 clock; with
`period = 7` the handler's cutoff is 2026-10-04. -/
def c9store : Store :=
  { users := [], categories := [],
    expenses :=
      [{ _id := 1, title := "old", amount := 10, description := none,
         category := 1, userId := 1, date := ⟨2026, 10, 1⟩,
         paymentMethod := "cash", tags := [] },
       { _id := 2, title := "recent", amount := 20, description := none,
         category := 1, userId := 1, date := ⟨2026, 10, 9⟩,
         paymentMethod := "cash", tags := [] }] }

/-- C9: the trends output has exactly one entry per distinct calendar day
carrying at least one windowed expense of the user, sorted ascending, each
entry holding that day's sum and count (never a zero-filled day); with a
7-day window over expenses on day −10 and day −2 only one entry remains. -/
theorem claim_c9_trends (uid : Nat) (sd : DateT) (s : Store) :
    ((trends uid sd s).map (fun t => t.day) =
        sortWith dLe (((matchTrends uid sd s).map (fun e => e.date)).dedup) ∧
      (trends uid sd s).length =
        (((matchTrends uid sd s).map (fun e => e.date)).dedup).length ∧
      List.Pairwise (fun a b => dLe a.day b.day = true) (trends uid sd s) ∧
      (∀ t ∈ trends uid sd s, 1 ≤ t.count ∧
        ∃ e ∈ s.expenses, e.userId = uid ∧ dLe sd e.date = true ∧ e.date = t.day) ∧
      (∀ e ∈ s.expenses, e.userId = uid → dLe sd e.date = true →
        ∃ t ∈ trends uid sd s, t.day = e.date ∧
          t.total = amountSum ((matchTrends uid sd s).filter (fun x => x.date == e.date)) ∧
          t.count = ((matchTrends uid sd s).filter (fun x => x.date == e.date)).length)) ∧
    ((trends 1 ⟨2026, 10, 4⟩ c9store).length = 1 ∧
      (trends 1 ⟨2026, 10, 4⟩ c9store).map (fun t => t.day) = [⟨2026, 10, 9⟩]) := by
  refine ⟨⟨?_, ?_, ?_, ?_, ?_⟩, by decide, by decide⟩
  · unfold trends
    rw [List.map_map]
    exact List.map_congr_left (fun d _ => rfl) |>.trans (List.map_id _)
  · unfold trends
    rw [List.length_map, length_sortWith]
  · unfold trends
    rw [List.pairwise_map]
    exact pairwise_sortWith dLe_total dLe_trans _
  · intro t ht
    unfold trends at ht
    rcases List.mem_map.mp ht with ⟨d, hd, rfl⟩
    have hd2 := mem_sortWith.mp hd
    have hd3 := List.mem_dedup.mp hd2
    rcases List.mem_map.mp hd3 with ⟨e, he, rfl⟩
    constructor
    · have hmem : e ∈ (matchTrends uid sd s).filter (fun x => x.date == e.date) :=
        List.mem_filter.mpr ⟨he, by simp⟩
      have := List.length_pos.mpr (List.ne_nil_of_mem hmem)
      simpa using this
    · have hf := List.mem_filter.mp he
      simp only [Bool.and_eq_true, beq_iff_eq] at hf
      exact ⟨e, hf.1, hf.2.1, hf.2.2, rfl⟩
  · intro e he hu hw
    have hmt : e ∈ matchTrends uid sd s := by
      refine List.mem_filter.mpr ⟨he, ?_⟩
      simp [hu, hw]
    have hkey : e.date ∈ sortWith dLe (((matchTrends uid sd s).map
        (fun x => x.date)).dedup) := by
      rw [mem_sortWith, List.mem_dedup]
      exact List.mem_map.mpr ⟨e, hmt, rfl⟩
    refine ⟨⟨e.date,
      amountSum ((matchTrends uid sd s).filter (fun x => x.date == e.date)),
      ((matchTrends uid sd s).filter (fun x => x.date == e.date)).length⟩,
      ?_, rfl, rfl, rfl⟩
    unfold trends
    exact List.mem_map.mpr ⟨e.date, hkey, rfl⟩

/-! ## Claim C10: category creation — duplicates and defaults -/

/-- C10: with a non-empty name, creating a category whose name the caller
already uses fails with the duplicate-name conflict and writes nothing;
with a fresh name it succeeds, appending a record owned by the caller with
`isDefault = false` and the documented color/icon defaults when those
fields are absent. -/
theorem claim_c10_create_category
    (uid newId : Nat) (inp : CategoryInput) (s : Store) (hname : inp.name ≠ "") :
    ((∃ c ∈ s.categories, c.name = inp.name ∧ c.userId = uid) →
      createCategory uid newId inp s = (.conflict, s)) ∧
    ((∀ c ∈ s.categories, ¬(c.name = inp.name ∧ c.userId = uid)) →
      ∃ c' : Category,
        (createCategory uid newId inp s).1 = .ok c' ∧
        (createCategory uid newId inp s).2.categories = s.categories ++ [c'] ∧
        (createCategory uid newId inp s).2.expenses = s.expenses ∧
        c'.name = inp.name ∧ c'.userId = uid ∧ c'.isDefault = false ∧
        c'.description = inp.description ∧
        (inp.color = none → c'.color = "#007bff") ∧
        (inp.icon = none → c'.icon = "fas fa-tag")) := by
  constructor
  · rintro ⟨c, hc, hcn, hcu⟩
    have hsome : (s.categories.find?
        (fun x => x.name == inp.name && x.userId == uid)).isSome = true := by
      rw [List.find?_isSome]
      refine ⟨c, hc, ?_⟩
      rw [hcn, hcu]
      simp
    simp only [createCategory]
    rw [if_neg hname, if_pos hsome]
  · intro hnodup
    have hnone : (s.categories.find?
        (fun x => x.name == inp.name && x.userId == uid)) = none := by
      rw [List.find?_eq_none]
      intro x hx
      simp only [Bool.and_eq_true, beq_iff_eq, not_and]
      intro hn hu
      exact absurd ⟨hn, hu⟩ (hnodup x hx)
    refine ⟨⟨newId, inp.name, inp.description, orDefault inp.color "#007bff",
      orDefault inp.icon "fas fa-tag", uid, false⟩,
      ?_, ?_, ?_, rfl, rfl, rfl, rfl, ?_, ?_⟩
    · simp only [createCategory]
      rw [if_neg hname, hnone]
      rfl
    · simp only [createCategory]
      rw [if_neg hname, hnone]
      rfl
    · simp only [createCategory]
      rw [if_neg hname, hnone]
      rfl
    · intro hcol
      simp [orDefault, hcol]
    · intro hico
      simp [orDefault, hico]

/-- A user-1 category named Travel, for the C10 witness. -/
def c10travel : Category :=
  { _id := 30, name := "Travel", description := none, color := "#007bff",
    icon := "fas fa-tag", userId := 1, isDefault := false }

/-- Store already holding Travel. -/
def c10store : Store := { users := [], categories := [c10travel], expenses := [] }

/-- The create-Travel request with color and icon absent. -/
def c10input : CategoryInput :=
  { name := "Travel", description := none, color := none, icon := none }

/-- C10 witness: creating Travel in an empty store succeeds with the
defaulted color/icon and `isDefault = false`; creating Travel again for
the same user conflicts and writes nothing. -/
theorem claim_c10_witness :
    (∃ c' : Category,
      (createCategory 1 30 c10input emptyStore).1 = .ok c' ∧
      (createCategory 1 30 c10input emptyStore).2.categories = [c'] ∧
      c'.isDefault = false ∧ c'.color = "#007bff" ∧ c'.icon = "fas fa-tag") ∧
    createCategory 1 31 c10input c10store = (.conflict, c10store) := by
  constructor
  · have h := (claim_c10_create_category 1 30 c10input emptyStore (by decide)).2
      (by intro c hc; cases hc)
    rcases h with ⟨c', h1, h2, _, _, _, h6, _, h8, h9⟩
    exact ⟨c', h1, by simpa using h2, h6, h8 rfl, h9 rfl⟩
  · exact (claim_c10_create_category 1 31 c10input c10store (by decide)).1
      ⟨c10travel, List.mem_cons_self _ _, rfl, rfl⟩

/-- C6 witness: the remaining-budget equation instantiated on the concrete
budget-5000 store. -/
theorem claim_c6_witness :
    (dashboard c6user ⟨2026, 10, 11⟩ c6store).monthly.remaining =
      c6user.monthlyBudget - amountSum (c6store.expenses.filter
        (fun e => e.userId == c6user._id && dLe (startOfMonth ⟨2026, 10, 11⟩) e.date)) :=
  (claim_c6_dashboard_remaining c6user ⟨2026, 10, 11⟩ c6store).1.2.2

/-- C8 witness: the ceiling-division page count instantiated on the
concrete 15-record store. -/
theorem claim_c8_witness :
    (listExpenses 1 c8query c8store).totalPages =
      (listExpenses 1 c8query c8store).total ⌈/⌉ c8query.limit :=
  (claim_c8_pagination 1 c8query c8store).1.2.2.2.2

/-- C9 witness: one entry per distinct day, instantiated on the concrete
two-expense store with the 7-day cutoff. -/
theorem claim_c9_witness :
    (trends 1 ⟨2026, 10, 4⟩ c9store).length =
      (((matchTrends 1 ⟨2026, 10, 4⟩ c9store).map (fun e => e.date)).dedup).length :=
  (claim_c9_trends 1 ⟨2026, 10, 4⟩ c9store).1.2.1
